import Mathlib

/-!
Verification development for a webhook-driven WhatsApp RAG bot
(Flask orchestrator, Supabase history store, Pinecone retrieval,
OpenRouter generation).  Python values flowing through the pipeline are
modelled by the inductive `Json`; Python exception behaviour is made
explicit: `KeyError` and `IndexError` are the exceptions the webhook
parser catches, while `TypeError` and `AttributeError` escape every
handler in the source and abort the request.
-/

namespace PaperBot

/-- A JSON value as decoded by Python: `None`, booleans, numbers
(integers exactly; non-integral numeric literals keep their parts
syntactically; the non-standard `Infinity`/`-Infinity`/`NaN` constants
CPython accepts are kept as such), strings, lists and dicts (key order
preserved, duplicate keys resolved last-wins on lookup, as
`json.loads` does). -/
inductive Json where
  | null : Json
  | bool (b : Bool) : Json
  | num (n : Int) : Json
  | fnum (neg : Bool) (ip : Nat) (fp : String) (ex : Int) : Json
  | inf (neg : Bool) : Json
  | nan : Json
  | str (s : String) : Json
  | arr (xs : List Json) : Json
  | obj (fields : List (String × Json)) : Json

/-- Python exceptions relevant to the pipeline.  The webhook parser
catches `keyError` and `indexError`; `typeError` and `attributeError`
propagate out of every function of the source. -/
inductive PyExn where
  | keyError : PyExn
  | indexError : PyExn
  | typeError : PyExn
  | attributeError : PyExn
  deriving DecidableEq, Repr

/-- Python truthiness of a JSON value (`if x:`). -/
def pyTruthy : Json → Bool
  | .null => false
  | .bool b => b
  | .num n => n != 0
  | .fnum _ ip fp _ => ip != 0 || fp.any (fun c => c != '0')
  | .inf _ => true
  | .nan => true
  | .str s => s != ""
  | .arr xs => !xs.isEmpty
  | .obj fs => !fs.isEmpty

/-- Lookup in a decoded JSON object: later duplicate keys win, as in a
Python dict built by `json.loads`. -/
def dictGet (fields : List (String × Json)) (k : String) : Option Json :=
  fields.foldl (fun acc kv => if kv.1 = k then some kv.2 else acc) none

/-- Python `d.get(k)` on a value known to be a dict, with default. -/
def objGet : Json → String → Option Json
  | .obj fs, k => dictGet fs k
  | _, _ => none

mutual
/-- Python `==` on JSON values: structural, except that `True == 1` and
`False == 0` hold across bool/int. -/
def pyEq : Json → Json → Bool
  | .null, .null => true
  | .bool a, .bool b => a == b
  | .bool a, .num n => n == (if a then (1 : Int) else 0)
  | .num n, .bool a => n == (if a then (1 : Int) else 0)
  | .num a, .num b => a == b
  | .fnum n₁ i₁ f₁ e₁, .fnum n₂ i₂ f₂ e₂ => n₁ == n₂ && i₁ == i₂ && f₁ == f₂ && e₁ == e₂
  | .inf n₁, .inf n₂ => n₁ == n₂
  | .nan, .nan => false
  | .str a, .str b => a == b
  | .arr a, .arr b => pyEqList a b
  | .obj a, .obj b => pyEqFields a b
  | _, _ => false

def pyEqList : List Json → List Json → Bool
  | [], [] => true
  | a :: as, b :: bs => pyEq a b && pyEqList as bs
  | _, _ => false

def pyEqFields : List (String × Json) → List (String × Json) → Bool
  | [], [] => true
  | (k₁, v₁) :: as, (k₂, v₂) :: bs => k₁ == k₂ && pyEq v₁ v₂ && pyEqFields as bs
  | _, _ => false
end

/-- Python `x[0]` on a JSON value: heads a list or string, raises
`KeyError` on a dict with only string keys, `IndexError` when empty,
`TypeError` otherwise. -/
def pyIndex0 : Json → Except PyExn Json
  | .arr [] => .error .indexError
  | .arr (x :: _) => .ok x
  | .str s =>
      match s.data with
      | [] => .error .indexError
      | c :: _ => .ok (.str (String.mk [c]))
  | .obj _ => .error .keyError
  | _ => .error .typeError

/-- Python `x.get(k, dflt)`: needs a dict receiver, otherwise raises
`AttributeError`. -/
def pyGetAttr (j : Json) (k : String) (dflt : Json) : Except PyExn Json :=
  match j with
  | .obj fs => .ok ((dictGet fs k).getD dflt)
  | _ => .error .attributeError

/-- Python `x[k]` with a string key: dict lookup (`KeyError` when
missing), `TypeError` on any other receiver. -/
def pyGetItem (j : Json) (k : String) : Except PyExn Json :=
  match j with
  | .obj fs =>
      match dictGet fs k with
      | some v => .ok v
      | none => .error .keyError
  | _ => .error .typeError

/-- Whether a value supports Python slicing `x[:100]` (strings and
lists do; the source slices replies inside log statements). -/
def sliceableB : Json → Bool
  | .str _ => true
  | .arr _ => true
  | _ => false

/-- The body of `parse_whatsapp_message`, before its `try`/`except`
wrapper: the literal traversal of the nested payload performed by the
source, each subscript and `.get` with exact Python semantics. -/
def parseCore (payload : Json) : Except PyExn (Option (Json × Json)) :=
  match pyGetAttr payload "entry" .null with
  | .error e => .error e
  | .ok entry =>
  if !pyTruthy entry then .ok none else
  match pyGetItem payload "entry" with
  | .error e => .error e
  | .ok t1 =>
  match pyIndex0 t1 with
  | .error e => .error e
  | .ok e0 =>
  match pyGetAttr e0 "changes" .null with
  | .error e => .error e
  | .ok changesV =>
  if !pyTruthy changesV then .ok none else
  match pyGetItem e0 "changes" with
  | .error e => .error e
  | .ok t2 =>
  match pyIndex0 t2 with
  | .error e => .error e
  | .ok c0 =>
  match pyGetAttr c0 "value" .null with
  | .error e => .error e
  | .ok valueV =>
  if !pyTruthy valueV then .ok none else
  match pyGetItem c0 "value" with
  | .error e => .error e
  | .ok v =>
  match pyGetAttr v "messages" .null with
  | .error e => .error e
  | .ok messagesV =>
  if !pyTruthy messagesV then .ok none else
  match pyGetItem v "messages" with
  | .error e => .error e
  | .ok msgs =>
  match pyIndex0 msgs with
  | .error e => .error e
  | .ok md =>
  -- the log line reads the message type via .get with a default first
  match pyGetAttr md "type" (.str "unknown") with
  | .error e => .error e
  | .ok _ =>
  match pyGetItem md "type" with
  | .error e => .error e
  | .ok tv =>
  if pyEq tv (.str "text") then
    match pyGetItem md "from" with
    | .error e => .error e
    | .ok sender =>
    match pyGetItem md "text" with
    | .error e => .error e
    | .ok textObj =>
    match pyGetItem textObj "body" with
    | .error e => .error e
    | .ok body => .ok (some (sender, body))
  else
    match pyGetItem md "type" with
    | .error e => .error e
    | .ok _ => .ok none

/-- The function `parse_whatsapp_message`: the traversal wrapped in
`except (KeyError, IndexError)` falling through to `(None, None)`.
`TypeError` and `AttributeError` are not caught and escape. -/
def parse_whatsapp_message (payload : Json) : Except PyExn (Option (Json × Json)) :=
  match parseCore payload with
  | .ok r => .ok r
  | .error .keyError => .ok none
  | .error .indexError => .ok none
  | .error e => .error e

/-- One row of the `conversation_history` table: a serial `id`, an
insertion `timestamp`, the filter key `user_phone_number`, the `sender`
column (`user` or `bot`) and the `message` column. -/
structure Row where
  id : Nat
  ts : Nat
  phone : Json
  sender : String
  message : Json

/-- The persistent state owned by Supabase: the `users` table as
`(phone_number, pinecone_namespace)` pairs, the `conversation_history`
table, and the serial counters the store assigns ids and timestamps
from. -/
structure DB where
  users : List (Json × Json)
  history : List Row
  nextId : Nat
  nextTs : Nat

/-- The observable external effects of one request, in order. -/
inductive Event where
  | insertMsg (phone : Json) (sender : String) (message : Json) : Event
  | deleteMsgs (ids : List Nat) : Event
  | nsLookup (phone : Json) : Event
  | historyFetch (phone : Json) : Event
  | embedCall (text : Json) : Event
  | searchCall (ns : Json) (topK : Nat) : Event
  | genCall : Event
  | send (recipient : Json) (body : Json) : Event

/-- Insertion into a timestamp-ordered list (the store keeps rows
retrievable in `timestamp` order). -/
def insertByTs (r : Row) : List Row → List Row
  | [] => [r]
  | x :: xs => if r.ts ≤ x.ts then r :: x :: xs else x :: insertByTs r xs

/-- The select clause ordering by timestamp ascending on a set of rows. -/
def sortByTs : List Row → List Row
  | [] => []
  | x :: xs => insertByTs x (sortByTs xs)

/-- The rows of `conversation_history` matching one `user_phone_number`
(the store compares the filter value with the column value). -/
def rowsFor (hist : List Row) (phone : Json) : List Row :=
  hist.filter (fun r => pyEq r.phone phone)

/-- Inserting one row: the store appends it with fresh serial id and
timestamp. -/
def insertRow (db : DB) (phone : Json) (sender : String) (message : Json) : DB :=
  { db with
    history := db.history ++ [⟨db.nextId, db.nextTs, phone, sender, message⟩]
    nextId := db.nextId + 1
    nextTs := db.nextTs + 1 }

/-- The function `get_user_namespace`: single filtered select on `users`; the first
matching row's `pinecone_namespace`, `None` when there is none. -/
def get_user_namespace (db : DB) (phone : Json) : Option Json × List Event :=
  (((db.users.filter (fun u => pyEq u.1 phone)).head?).map (fun u => u.2),
   [.nsLookup phone])

/-- The function `get_conversation_history`: select matching rows ordered by
timestamp descending, keep the first `limit`, then reverse back to
oldest-first. -/
def get_conversation_history (db : DB) (phone : Json) (limit : Nat) :
    List Row × List Event :=
  ((((sortByTs (rowsFor db.history phone)).reverse.take limit).reverse),
   [.historyFetch phone])

/-- The function `add_message_to_history`: insert the new row; re-select all of the
sender's rows ordered by timestamp ascending; if more than 20, delete
the oldest `count - 20` by id. -/
def add_message_to_history (db : DB) (phone : Json) (sender : String)
    (message : Json) : DB × List Event :=
  let db1 := insertRow db phone sender message
  let allMsgs := sortByTs (rowsFor db1.history phone)
  if allMsgs.length > 20 then
    let idsToDelete := ((allMsgs.take (allMsgs.length - 20)).map Row.id)
    ({ db1 with history := db1.history.filter (fun r => !idsToDelete.contains r.id) },
     [.insertMsg phone sender message, .deleteMsgs idsToDelete])
  else
    (db1, [.insertMsg phone sender message])

/-- Well-formedness of the store: rows are in insertion order with
strictly increasing timestamps and strictly increasing serial ids, all
below the counters.  Every state reachable from an empty store by the
operations above satisfies it. -/
def WF (db : DB) : Prop :=
  db.history.Pairwise (fun a b => a.ts < b.ts) ∧
  db.history.Pairwise (fun a b => a.id < b.id) ∧
  ∀ r ∈ db.history, r.id < db.nextId ∧ r.ts < db.nextTs

/-- JSON whitespace accepted by `json.loads`. -/
def isJsonWs (c : Char) : Bool :=
  c = ' ' || c = '\t' || c = '\n' || c = '\r'

def skipWs (cs : List Char) : List Char := cs.dropWhile isJsonWs

def hexVal (c : Char) : Option Nat :=
  if '0' ≤ c ∧ c ≤ '9' then some (c.toNat - '0'.toNat)
  else if 'a' ≤ c ∧ c ≤ 'f' then some (c.toNat - 'a'.toNat + 10)
  else if 'A' ≤ c ∧ c ≤ 'F' then some (c.toNat - 'A'.toNat + 10)
  else none

/-- The body of a JSON string after its opening quote: returns the
decoded characters and the remaining input after the closing quote.
Escapes follow `json.loads`; raw control characters are rejected
(strict mode). -/
def parseStringBody : List Char → Option (List Char × List Char)
  | [] => none
  | '"' :: rest => some ([], rest)
  | '\\' :: 'n' :: rest => (parseStringBody rest).map (fun p => ('\n' :: p.1, p.2))
  | '\\' :: 't' :: rest => (parseStringBody rest).map (fun p => ('\t' :: p.1, p.2))
  | '\\' :: 'r' :: rest => (parseStringBody rest).map (fun p => ('\r' :: p.1, p.2))
  | '\\' :: 'b' :: rest => (parseStringBody rest).map (fun p => ('\x08' :: p.1, p.2))
  | '\\' :: 'f' :: rest => (parseStringBody rest).map (fun p => ('\x0c' :: p.1, p.2))
  | '\\' :: '/' :: rest => (parseStringBody rest).map (fun p => ('/' :: p.1, p.2))
  | '\\' :: '"' :: rest => (parseStringBody rest).map (fun p => ('"' :: p.1, p.2))
  | '\\' :: '\\' :: rest => (parseStringBody rest).map (fun p => ('\\' :: p.1, p.2))
  | '\\' :: 'u' :: a :: b :: c :: d :: rest =>
      match hexVal a, hexVal b, hexVal c, hexVal d with
      | some x, some y, some z, some w =>
          let n := ((x * 16 + y) * 16 + z) * 16 + w
          (parseStringBody rest).map (fun p => (Char.ofNat n :: p.1, p.2))
      | _, _, _, _ => none
  | '\\' :: _ => none
  | c :: rest =>
      if c.toNat < 32 then none
      else (parseStringBody rest).map (fun p => (c :: p.1, p.2))

def isDigit (c : Char) : Bool := '0' ≤ c && c ≤ '9'

def digitsToNat (ds : List Char) : Nat :=
  ds.foldl (fun acc c => acc * 10 + (c.toNat - '0'.toNat)) 0

def parseDigits (cs : List Char) : Option (List Char × List Char) :=
  let ds := cs.takeWhile isDigit
  if ds.isEmpty then none else some (ds, cs.drop ds.length)

/-- A JSON numeric literal.  Integers become `Json.num`; literals with
a fractional part or exponent keep their syntactic parts in
`Json.fnum` (their numeric value is never computed by the pipeline). -/
def parseNumber (cs : List Char) : Option (Json × List Char) :=
  let (neg, cs1) := match cs with
    | '-' :: r => (true, r)
    | _ => (false, cs)
  match parseDigits cs1 with
  | none => none
  | some (ip, cs2) =>
    if ip.length > 1 ∧ ip.head? = some '0' then none
    else
      let ipn := digitsToNat ip
      match cs2 with
      | '.' :: cs3 =>
          match parseDigits cs3 with
          | none => none
          | some (fp, cs4) =>
              match cs4 with
              | 'e' :: cs5 => (parseExp cs5).map
                  (fun p => (Json.fnum neg ipn (String.mk fp) p.1, p.2))
              | 'E' :: cs5 => (parseExp cs5).map
                  (fun p => (Json.fnum neg ipn (String.mk fp) p.1, p.2))
              | _ => some (Json.fnum neg ipn (String.mk fp) 0, cs4)
      | 'e' :: cs3 => (parseExp cs3).map
          (fun p => (Json.fnum neg ipn "" p.1, p.2))
      | 'E' :: cs3 => (parseExp cs3).map
          (fun p => (Json.fnum neg ipn "" p.1, p.2))
      | _ => some (Json.num (if neg then -(ipn : Int) else (ipn : Int)), cs2)
where
  parseExp (cs : List Char) : Option (Int × List Char) :=
    let (eneg, cs1) := match cs with
      | '-' :: r => (true, r)
      | '+' :: r => (false, r)
      | _ => (false, cs)
    match parseDigits cs1 with
    | none => none
    | some (ds, cs2) =>
        let n := digitsToNat ds
        some ((if eneg then -(n : Int) else (n : Int)), cs2)

mutual
/-- Fuel-indexed recursive-descent JSON value parser mirroring
`json.loads`. -/
def parseValue : Nat → List Char → Option (Json × List Char)
  | 0, _ => none
  | fuel + 1, cs =>
    match skipWs cs with
    | '{' :: rest =>
        match skipWs rest with
        | '}' :: r2 => some (.obj [], r2)
        | r2 => (parseMembers fuel r2).map (fun p => (Json.obj p.1, p.2))
    | '[' :: rest =>
        match skipWs rest with
        | ']' :: r2 => some (.arr [], r2)
        | r2 => (parseElems fuel r2).map (fun p => (Json.arr p.1, p.2))
    | '"' :: rest => (parseStringBody rest).map
        (fun p => (Json.str (String.mk p.1), p.2))
    | 't' :: 'r' :: 'u' :: 'e' :: r => some (.bool true, r)
    | 'f' :: 'a' :: 'l' :: 's' :: 'e' :: r => some (.bool false, r)
    | 'n' :: 'u' :: 'l' :: 'l' :: r => some (.null, r)
    -- CPython accepts the non-standard constants by default
    | 'N' :: 'a' :: 'N' :: r => some (.nan, r)
    | 'I' :: 'n' :: 'f' :: 'i' :: 'n' :: 'i' :: 't' :: 'y' :: r => some (.inf false, r)
    | '-' :: 'I' :: 'n' :: 'f' :: 'i' :: 'n' :: 'i' :: 't' :: 'y' :: r => some (.inf true, r)
    | rest => parseNumber rest

def parseMembers : Nat → List Char → Option (List (String × Json) × List Char)
  | 0, _ => none
  | fuel + 1, cs =>
    match skipWs cs with
    | '"' :: rest =>
        match parseStringBody rest with
        | none => none
        | some (k, r1) =>
            match skipWs r1 with
            | ':' :: r2 =>
                match parseValue fuel r2 with
                | none => none
                | some (v, r3) =>
                    match skipWs r3 with
                    | ',' :: r4 => (parseMembers fuel r4).map
                        (fun p => ((String.mk k, v) :: p.1, p.2))
                    | '}' :: r4 => some ([(String.mk k, v)], r4)
                    | _ => none
            | _ => none
    | _ => none

def parseElems : Nat → List Char → Option (List Json × List Char)
  | 0, _ => none
  | fuel + 1, cs =>
    match parseValue fuel cs with
    | none => none
    | some (v, r1) =>
        match skipWs r1 with
        | ',' :: r2 => (parseElems fuel r2).map (fun p => (v :: p.1, p.2))
        | ']' :: r2 => some ([v], r2)
        | _ => none
end

/-- Python `json.loads`: parse one value and require only whitespace after
it. -/
def strictParse (s : String) : Option Json :=
  match parseValue (2 * s.length + 2) s.data with
  | some (j, rest) => if (skipWs rest).isEmpty then some j else none
  | none => none

/-- Python `\s`: the whitespace class of the `re` module on `str`
patterns — the ASCII whitespace and separator controls plus the
Unicode whitespace characters. -/
def isPyWs (c : Char) : Bool :=
  c = ' ' || c = '\t' || c = '\n' || c = '\r' || c = '\x0b' || c = '\x0c' ||
  c = '\x1c' || c = '\x1d' || c = '\x1e' || c = '\x1f' || c = '\x85' || c = '\xa0' ||
  c = '\u1680' || ('\u2000' ≤ c && c ≤ '\u200a') || c = '\u2028' || c = '\u2029' ||
  c = '\u202f' || c = '\u205f' || c = '\u3000'

/-- Match a literal character sequence at the head of the input,
returning the rest. -/
def dropLit : List Char → List Char → Option (List Char)
  | [], cs => some cs
  | _ :: _, [] => none
  | p :: ps, c :: cs => if c = p then dropLit ps cs else none

/-- The literal searched for by the fallback guard and opening the
fallback pattern. -/
def msgLit : List Char := '"' :: 'm' :: 'e' :: 's' :: 's' :: 'a' :: 'g' :: 'e' :: '"' :: []

/-- Attempt the salvage pattern at the head of the input: the regex
`"message" \s* : \s* " ([^"]*) "` with its capture group. -/
def matchAt (cs : List Char) : Option String :=
  match dropLit msgLit cs with
  | none => none
  | some cs1 =>
    match cs1.dropWhile isPyWs with
    | ':' :: cs2 =>
        match cs2.dropWhile isPyWs with
        | '"' :: cs3 =>
            let cap := cs3.takeWhile (fun c => c ≠ '"')
            match cs3.drop cap.length with
            | '"' :: _ => some (String.mk cap)
            | _ => none
        | _ => none
    | _ => none

/-- Python `re.search`: try the pattern at every position left to right and
return the first capture. -/
def reSearch : List Char → Option String
  | [] => none
  | c :: rest =>
    match matchAt (c :: rest) with
    | some cap => some cap
    | none => reSearch rest

/-- The guard testing substring containment of the `"message"`
literal in the raw response. -/
def hasMsgLit : List Char → Bool
  | [] => false
  | c :: rest => (dropLit msgLit (c :: rest)).isSome || hasMsgLit rest

/-- What `get_llm_response` does with the content string of the
generation response: strict JSON parse, extract `message`, slice it
for the log line (raising an uncaught `TypeError` when the field is
not sliceable — the slice happens before the emptiness check), then
the truthiness check; on parse failure the guarded regex salvage.
A content string that parses to a non-object makes `.get` raise an
uncaught `AttributeError`. -/
def parse_llm_content (raw : String) : Except PyExn (Option Json) :=
  match strictParse raw with
  | some (.obj fs) =>
      let message := (dictGet fs "message").getD (.str "")
      -- the log line slices message[:150] before `if not message:`
      if !sliceableB message then .error .typeError
      else if pyTruthy message then .ok (some message) else .ok none
  | some _ => .error .attributeError
  | none =>
      if hasMsgLit raw.data then
        match reSearch raw.data with
        | some cap => .ok (some (.str cap))
        | none => .ok none
      else .ok none

mutual
/-- Python `repr` of a decoded JSON value (used only when non-string
values are interpolated into log/prompt text; strings keep Python's
single-quote convention). -/
def reprJson : Json → String
  | .null => "None"
  | .bool true => "True"
  | .bool false => "False"
  | .num n => toString n
  | .fnum neg ip fp ex =>
      (if neg then "-" else "") ++ toString ip ++
      (if fp = "" then "" else "." ++ fp) ++
      (if ex = 0 then "" else "e" ++ toString ex)
  | .inf neg => (if neg then "-" else "") ++ "inf"
  | .nan => "nan"
  | .str s => "\x27" ++ s ++ "\x27"
  | .arr xs => "[" ++ reprList xs ++ "]"
  | .obj fs => "\x7b" ++ reprFields fs ++ "\x7d"

def reprList : List Json → String
  | [] => ""
  | [x] => reprJson x
  | x :: y :: xs => reprJson x ++ ", " ++ reprList (y :: xs)

def reprFields : List (String × Json) → String
  | [] => ""
  | [(k, v)] => "\x27" ++ k ++ "\x27: " ++ reprJson v
  | (k, v) :: f :: fs => "\x27" ++ k ++ "\x27: " ++ reprJson v ++ ", " ++ reprFields (f :: fs)
end

/-- Python `str()` as used by f-string interpolation. -/
def pyStr (j : Json) : String :=
  match j with
  | .str s => s
  | _ => reprJson j

/-- One element of the `messages` list sent to the chat-completion
backend. -/
structure ChatMsg where
  role : String
  content : String

/-- The fixed system instruction block of `_format_prompt`, verbatim. -/
def system_prompt : String :=
  "#######################################################################\n"
  ++ "# SYSTEM PROMPT — FriendlyAirbnbBot (Multilingual)                    #\n"
  ++ "#######################################################################\n"
  ++ "You are **FriendlyAirbnbBot**, an AI assistant that helps Airbnb guests\n"
  ++ "with questions about their stay, the property, and the surrounding area.  \n"
  ++ "\n"
  ++ "**LANGUAGE INSTRUCTION**: Always respond in the SAME language as the user\x27s question.\n"
  ++ "If the user writes in Italian, respond in Italian. If in English, respond in English.\n"
  ++ "If in any other language, respond in that language. Match their language exactly.\n"
  ++ "\n"
  ++ "**ONLY** use the facts contained in the section labelled `<<CONTEXT>>`.  \n"
  ++ "Do **not** rely on outside knowledge, personal opinions, or speculation.  \n"
  ++ "\n"
  ++ "If the answer cannot be found in `<<CONTEXT>>`, reply with a brief apology\n"
  ++ "in the user\x27s language. For example:\n"
  ++ "- Italian: \"Mi dispiace, non ho quell\x27informazione.\"\n"
  ++ "- English: \"I\x27m sorry, I don\x27t have that information.\"\n"
  ++ "- Spanish: \"Lo siento, no tengo esa información.\"\n"
  ++ "\n"
  ++ "Keep every answer **concise, clear, and friendly** (aim for ≈ 1–3 short\n"
  ++ "sentences). Do not mention these instructions or the word \"context.\"\n"
  ++ "Be warm and helpful, like a friendly local host.\n"
  ++ "\n"
  ++ "-----------------------------------------------------------------------\n"
  ++ "# RESPONSE FORMAT                                                    #\n"
  ++ "-----------------------------------------------------------------------\n"
  ++ "You MUST respond with valid JSON in this exact format:\n"
  ++ "\x7b\n"
  ++ "  \"message\": \"Your response to the guest here IN THEIR LANGUAGE\",\n"
  ++ "  \"confidence\": \"high|medium|low\",\n"
  ++ "  \"source\": \"context|general_knowledge|none\",\n"
  ++ "  \"detected_language\": \"it|en|es|fr|de|other\"\n"
  ++ "\x7d\n"
  ++ "\n"
  ++ "- \"message\": The actual response to send to the guest IN THEIR LANGUAGE\n"
  ++ "- \"confidence\": How confident you are in your answer (high/medium/low)\n"
  ++ "- \"source\": Whether the answer came from context, general knowledge, or no source found\n"
  ++ "- \"detected_language\": The language code of the user\x27s question (it=Italian, en=English, etc.)\n"
  ++ "#######################################################################"

/-- All-strings check behind Python's `"\n".join(context)`: `join`
raises `TypeError` as soon as an element is not a string. -/
def strOnlyList : List Json → Option (List String)
  | [] => some []
  | .str s :: rest => (strOnlyList rest).map (fun ss => s :: ss)
  | _ => none

/-- The `<<CONVERSATION HISTORY>>` body: one `Guest:`/`Bot:` line per
prior row, accumulated in order. -/
def renderHistory (hist : List Row) : String :=
  hist.foldl
    (fun acc r =>
      acc ++ (if r.sender = "user" then "Guest" else "Bot") ++ ": " ++ pyStr r.message ++ "\n")
    ""

/-- The function `_format_prompt`: the three delimited sections in fixed order
inside a single user turn, after the fixed system block.  A non-string
context chunk makes `"\n".join` raise an uncaught `TypeError`. -/
def _format_prompt (user_query : Json) (history : List Row) (context : List Json) :
    Except PyExn (List ChatMsg) := do
  let context_section ←
    match context with
    | [] => pure "<<CONTEXT>>\n(No relevant information found)\n<<END CONTEXT>>"
    | _ =>
      match strOnlyList context with
      | none => Except.error .typeError
      | some ss => pure ("<<CONTEXT>>\n" ++ String.intercalate "\n" ss ++ "\n<<END CONTEXT>>")
  let history_section :=
    "<<CONVERSATION HISTORY>>\n"
    ++ (if history.isEmpty then "(No previous conversation)\n" else renderHistory history)
    ++ "<<END CONVERSATION HISTORY>>"
  let user_question_section := "<<USER QUESTION>>\n" ++ pyStr user_query ++ "\n<<END USER QUESTION>>"
  let full_prompt := context_section ++ "\n\n" ++ history_section ++ "\n\n" ++ user_question_section
  return [⟨"system", system_prompt⟩, ⟨"user", full_prompt⟩]

/-- The behaviour of the external services in one request: the
embedding result (empty on any Bedrock failure), the ranked Pinecone
matches for a vector query, the generation endpoint outcome (`error`
for transport failure / bad status, `ok` for the first choice's
content string) and whether the WhatsApp send succeeds. -/
structure Oracles where
  embed : Json → List Int
  search : Json → List Int → Nat → List Json
  llmResp : Except Unit String
  sendOk : Bool

/-- The function `get_bedrock_embedding`: every failure inside is caught and
degrades to the empty vector, so the oracle already carries the
resulting list. -/
def get_bedrock_embedding (o : Oracles) (text : Json) : List Int × List Event :=
  (o.embed text, [.embedCall text])

/-- The per-match body of the retrieval loop: `match.get('metadata')`
then `metadata.get('text', '')`, appending only truthy text; any
exception inside one iteration is caught and the match skipped. -/
def matchText (m : Json) : Option Json :=
  match m with
  | .obj fs =>
      match (dictGet fs "metadata").getD (.obj []) with
      | .obj mf =>
          let t := (dictGet mf "text").getD (.str "")
          if pyTruthy t then some t else none
      | _ => none
  | _ => none

/-- The retrieval loop itself, accumulating contexts in match order as
the source's `for` loop does. -/
def collectContexts (acc : List Json) : List Json → List Json
  | [] => acc
  | m :: rest =>
      match matchText m with
      | some t => collectContexts (acc ++ [t]) rest
      | none => collectContexts acc rest

/-- The function `query_pinecone`: embed the query; on an empty embedding abort
before any similarity search; otherwise query the index and extract
the text of each match. -/
def query_pinecone (o : Oracles) (query_text : Json) (ns : Json) (top_k : Nat) :
    List Json × List Event :=
  let (emb, ev1) := get_bedrock_embedding o query_text
  if emb.isEmpty then ([], ev1)
  else
    let ms := o.search ns emb top_k
    (collectContexts [] ms, ev1 ++ [.searchCall ns top_k])

/-- The function `get_llm_response`: format the prompt (outside the `try`, so its
`TypeError` escapes), perform the HTTP call (transport errors caught,
yielding `None`), then parse the content. -/
def get_llm_response (o : Oracles) (user_query : Json) (history : List Row)
    (context : List Json) : Except PyExn (Option Json) × List Event :=
  match _format_prompt user_query history context with
  | .error e => (.error e, [])
  | .ok _msgs =>
      match o.llmResp with
      | .error _ => (.ok none, [.genCall])
      | .ok content => (parse_llm_content content, [.genCall])

/-- The function `send_whatsapp_message`: logs a slice of the text (raising
`TypeError` on non-sliceable bodies), performs exactly one outbound
call; transport failures are caught and logged. -/
def send_whatsapp_message (recipient : Json) (body : Json) : Except PyExn Unit × List Event :=
  if sliceableB body then (.ok (), [.send recipient body]) else (.error .typeError, [])

/-- The fixed unknown-profile apology of the orchestrator. -/
def apologyProfile : String :=
  "Sorry, I can\x27t seem to find your user profile. Please contact support."

/-- The fixed generation-failure apology of the orchestrator. -/
def apologyError : String :=
  "I\x27m sorry, I encountered an error and can\x27t respond right now."

/-- The orchestrator body after a processable message has been parsed:
persist the user turn, resolve the namespace, fetch history, retrieve
context, generate, deliver and persist the bot turn — with the exact
early exits of `handle_message`.  The event trace records effects
already performed even when an uncaught exception aborts the rest. -/
def process (p q : Json) (db : DB) (o : Oracles) :
    Except PyExn (String × Nat) × List Event × DB :=
  let (db1, ev1) := add_message_to_history db p "user" q
  let (nsOpt, ev2) := get_user_namespace db1 p
  let tr0 := ev1 ++ ev2
  match nsOpt with
  | none =>
      match send_whatsapp_message p (.str apologyProfile) with
      | (.ok _, evs) => (.ok ("OK", 200), tr0 ++ evs, db1)
      | (.error e, evs) => (.error e, tr0 ++ evs, db1)
  | some ns =>
      if !pyTruthy ns then
        match send_whatsapp_message p (.str apologyProfile) with
        | (.ok _, evs) => (.ok ("OK", 200), tr0 ++ evs, db1)
        | (.error e, evs) => (.error e, tr0 ++ evs, db1)
      else
        let (history, ev3) := get_conversation_history db1 p 20
        let (context, ev4) := query_pinecone o q ns 5
        let tr1 := tr0 ++ ev3 ++ ev4
        match get_llm_response o q history context with
        | (.error e, ev5) => (.error e, tr1 ++ ev5, db1)
        | (.ok botResponse, ev5) =>
            match botResponse with
            | some j =>
                if pyTruthy j then
                  -- the success log slices the reply before sending
                  if sliceableB j then
                    match send_whatsapp_message p j with
                    | (.ok _, ev6) =>
                        let (db2, ev7) := add_message_to_history db1 p "bot" j
                        (.ok ("OK", 200), tr1 ++ ev5 ++ ev6 ++ ev7, db2)
                    | (.error e, ev6) => (.error e, tr1 ++ ev5 ++ ev6, db1)
                  else (.error .typeError, tr1 ++ ev5, db1)
                else
                  match send_whatsapp_message p (.str apologyError) with
                  | (.ok _, ev6) => (.ok ("OK", 200), tr1 ++ ev5 ++ ev6, db1)
                  | (.error e, ev6) => (.error e, tr1 ++ ev5 ++ ev6, db1)
            | none =>
                match send_whatsapp_message p (.str apologyError) with
                | (.ok _, ev6) => (.ok ("OK", 200), tr1 ++ ev5 ++ ev6, db1)
                | (.error e, ev6) => (.error e, tr1 ++ ev5 ++ ev6, db1)

/-- The POST webhook handler: parse the payload (uncaught exceptions
escape to the WSGI layer), acknowledge non-messages, otherwise run the
pipeline.  The result triple is (response, events performed, store
state). -/
def handle_message (payload : Json) (db : DB) (o : Oracles) :
    Except PyExn (String × Nat) × List Event × DB :=
  match parse_whatsapp_message payload with
  | .error e => (.error e, [], db)
  | .ok none => (.ok ("OK", 200), [], db)
  | .ok (some (p, q)) =>
      if !pyTruthy p || !pyTruthy q then (.ok ("OK", 200), [], db)
      else process p q db o

/-- The generation adapter's outcome as a function of the backend
response alone (prompt formatting does not influence it): transport
failure degrades to `None`, otherwise the content string is parsed. -/
def genReply (o : Oracles) : Except PyExn (Option Json) :=
  match o.llmResp with
  | .error _ => .ok none
  | .ok content => parse_llm_content content

/-- The namespace the identity store associates with a sender, if
any row matches. -/
def nsOf (db : DB) (p : Json) : Option Json :=
  ((db.users.filter (fun u => pyEq u.1 p)).head?).map (fun u => u.2)

/-- Number of outbound deliveries in a trace. -/
def countSend (tr : List Event) : Nat :=
  tr.countP (fun e => match e with | .send _ _ => true | _ => false)

/-- Number of similarity-search calls in a trace. -/
def countSearch (tr : List Event) : Nat :=
  tr.countP (fun e => match e with | .searchCall _ _ => true | _ => false)

/-- Number of generation calls in a trace. -/
def countGen (tr : List Event) : Nat :=
  tr.countP (fun e => match e with | .genCall => true | _ => false)

/-- The outbound deliveries of a trace, in order. -/
def sends (tr : List Event) : List Event :=
  tr.filter (fun e => match e with | .send _ _ => true | _ => false)

/-- The bot-turn history writes of a trace, in order. -/
def botInserts (tr : List Event) : List Event :=
  tr.filter (fun e => match e with | .insertMsg _ s _ => s == "bot" | _ => false)

/-- A store holding 21 rows for one sender, so that the next append
exercises the trim. -/
def dbTrim : DB :=
  ⟨[], (List.range 21).map (fun i => ⟨i, i, .str "u", "user", .str "m"⟩), 21, 21⟩

/-- The exact structural condition under which the WhatsApp payload
traversal succeeds: spec-side characterization of `parse_whatsapp_message`
success, stated declaratively over the payload tree. -/
def DecodeSuccess (payload p q : Json) : Prop :=
  ∃ pf es e0f cs c0f vf ms mdf tf,
    payload = Json.obj pf ∧
    dictGet pf "entry" = some (.arr es) ∧ es.head? = some (.obj e0f) ∧
    dictGet e0f "changes" = some (.arr cs) ∧ cs.head? = some (.obj c0f) ∧
    dictGet c0f "value" = some (.obj vf) ∧
    dictGet vf "messages" = some (.arr ms) ∧ ms.head? = some (.obj mdf) ∧
    dictGet mdf "type" = some (.str "text") ∧
    dictGet mdf "from" = some p ∧
    dictGet mdf "text" = some (.obj tf) ∧
    dictGet tf "body" = some q

/-! ### Concrete payloads, stores and backend behaviours used by the
witnesses and counterexamples -/

def sampleMsg : Json := .obj [
  ("from", .str "11234567890"),
  ("id", .str "MSG_ID"),
  ("text", .obj [("body", .str "Is breakfast included?")]),
  ("type", .str "text")]

def sampleValue : Json := .obj [
  ("messaging_product", .str "whatsapp"),
  ("messages", .arr [sampleMsg])]

def samplePayload : Json := .obj [
  ("object", .str "whatsapp_business_account"),
  ("entry", .arr [.obj [
    ("id", .str "ACCOUNT_ID"),
    ("changes", .arr [.obj [
      ("value", sampleValue),
      ("field", .str "messages")]])]])]

def sampleDb : DB := ⟨[(.str "11234567890", .str "ns1")], [], 0, 0⟩

def emptyDb : DB := ⟨[], [], 0, 0⟩

def goodContent : String :=
  "\x7b\"message\":\"Yes\",\"confidence\":\"high\",\"source\":\"context\",\"detected_language\":\"en\"\x7d"

def altContent : String :=
  "\x7b\"message\":\"Yes\",\"confidence\":\"low\",\"source\":\"none\",\"detected_language\":\"it\"\x7d"

def sampleOracles : Oracles := ⟨fun _ => [1], fun _ _ _ => [], .ok goodContent, true⟩

def crashOracles : Oracles := ⟨fun _ => [1], fun _ _ _ => [], .ok "\"x\"", true⟩

def emptyBodyMsg : Json := .obj [
  ("from", .str "11234567890"),
  ("text", .obj [("body", .str "")]),
  ("type", .str "text")]

def emptyBodyPayload : Json := .obj [
  ("entry", .arr [.obj [
    ("changes", .arr [.obj [
      ("value", .obj [("messages", .arr [emptyBodyMsg])])]])]])]

def typeConfusedPayload : Json := .obj [("entry", .num 5)]

def fromlessMsg : Json := .obj [("type", .str "text")]

def fromlessPayload : Json := .obj [
  ("entry", .arr [.obj [
    ("changes", .arr [.obj [
      ("value", .obj [("messages", .arr [fromlessMsg])])]])]])]

def claimDecodeCond (payload : Json) : Prop :=
  ∃ pf es e0f cs c0f vf ms mdf,
    payload = Json.obj pf ∧
    dictGet pf "entry" = some (.arr es) ∧ es.head? = some (.obj e0f) ∧
    dictGet e0f "changes" = some (.arr cs) ∧ cs.head? = some (.obj c0f) ∧
    dictGet c0f "value" = some (.obj vf) ∧
    dictGet vf "messages" = some (.arr ms) ∧ ms.head? = some (.obj mdf) ∧
    dictGet mdf "type" = some (.str "text")

def salvageRaw : String := "oops \"message\": \"Hello\""

def emptySalvageRaw : String := "x \"message\": \"\""

/-! ### Store lemmas -/

theorem insertByTs_of_le (r : Row) (l : List Row) (h : ∀ x ∈ l, r.ts ≤ x.ts) :
    insertByTs r l = r :: l := by
  cases l with
  | nil => rfl
  | cons x xs =>
      simp only [insertByTs, if_pos (h x (List.mem_cons_self x xs))]

theorem sortByTs_eq_of_sorted (l : List Row)
    (h : l.Pairwise (fun a b => a.ts < b.ts)) : sortByTs l = l := by
  induction l with
  | nil => rfl
  | cons a t ih =>
      rw [sortByTs, ih (List.Pairwise.of_cons h),
        insertByTs_of_le a t (fun x hx => le_of_lt (List.rel_of_pairwise_cons h hx))]

theorem WF_insertRow (db : DB) (h : WF db) (p : Json) (s : String) (m : Json) :
    WF (insertRow db p s m) := by
  obtain ⟨hts, hid, hb⟩ := h
  refine ⟨?_, ?_, ?_⟩
  · rw [insertRow, List.pairwise_append]
    exact ⟨hts, List.pairwise_singleton _ _,
      fun a ha b hb' => by
        simp only [List.mem_singleton] at hb'
        subst hb'
        exact (hb a ha).2⟩
  · rw [insertRow, List.pairwise_append]
    exact ⟨hid, List.pairwise_singleton _ _,
      fun a ha b hb' => by
        simp only [List.mem_singleton] at hb'
        subst hb'
        exact (hb a ha).1⟩
  · intro r hr
    rw [insertRow] at hr
    simp only [List.mem_append, List.mem_singleton] at hr
    rcases hr with hr | hr
    · exact ⟨Nat.lt_succ_of_lt (hb r hr).1, Nat.lt_succ_of_lt (hb r hr).2⟩
    · subst hr
      exact ⟨Nat.lt_succ_self _, Nat.lt_succ_self _⟩

/-- Deleting by the ids of the first `k` rows of a list with distinct
ids keeps exactly the rows after position `k`, in order. -/
theorem filter_take_ids_eq_drop (k : Nat) (l : List Row)
    (h : l.Pairwise (fun a b => a.id ≠ b.id)) :
    l.filter (fun r => !((l.take k).map Row.id).contains r.id) = l.drop k := by
  induction l generalizing k with
  | nil => simp
  | cons a t ih =>
      cases k with
      | zero => simp
      | succ k =>
          have hids : ∀ x ∈ t, x.id ≠ a.id :=
            fun x hx => (List.rel_of_pairwise_cons h hx).symm
          simp only [List.take_succ_cons, List.map_cons, List.drop_succ_cons]
          rw [List.filter_cons]
          have ha : (!((a.id :: (t.take k).map Row.id).contains a.id)) = false := by
            simp [List.contains_cons]
          rw [ha]
          simp only [Bool.false_eq_true, if_false]
          have hcong : t.filter (fun r => !((a.id :: (t.take k).map Row.id).contains r.id))
              = t.filter (fun r => !((t.take k).map Row.id).contains r.id) := by
            apply List.filter_congr
            intro x hx
            simp [List.contains_cons, hids x hx]
          rw [hcong, ih k (List.Pairwise.of_cons h)]

theorem contains_true_iff (l : List Nat) (x : Nat) : l.contains x = true ↔ x ∈ l := by
  simp [List.elem_iff]

theorem rowsFor_filter_comm (l : List Row) (p : Json) (pd : Row → Bool) :
    rowsFor (l.filter pd) p = (rowsFor l p).filter pd := by
  simp only [rowsFor, List.filter_filter]
  apply List.filter_congr
  intro x _
  exact Bool.and_comm _ _

theorem fetch_eq_of_sorted (db : DB) (p : Json)
    (h : (rowsFor db.history p).Pairwise (fun a b => a.ts < b.ts))
    (hlen : (rowsFor db.history p).length ≤ 20) :
    (get_conversation_history db p 20).1 = rowsFor db.history p := by
  rw [get_conversation_history, sortByTs_eq_of_sorted _ h,
    List.take_of_length_le (by simpa using hlen), List.reverse_reverse]


theorem add_users_eq (db : DB) (p : Json) (s : String) (m : Json) :
    (add_message_to_history db p s m).1.users = db.users := by
  rw [add_message_to_history]
  by_cases h : (sortByTs (rowsFor (insertRow db p s m).history p)).length > 20
  · rw [if_pos h]
    rfl
  · rw [if_neg h]
    rfl

theorem add_message_events_shape (db : DB) (p : Json) (s : String) (m : Json) :
    (add_message_to_history db p s m).2 = [Event.insertMsg p s m] ∨
    ∃ ids, (add_message_to_history db p s m).2 = [Event.insertMsg p s m, Event.deleteMsgs ids] := by
  rw [add_message_to_history]
  by_cases h : (sortByTs (rowsFor (insertRow db p s m).history p)).length > 20
  · rw [if_pos h]
    exact Or.inr ⟨_, rfl⟩
  · rw [if_neg h]
    exact Or.inl rfl

theorem process_unknown (p q : Json) (db : DB) (o : Oracles)
    (h : ∀ ns, nsOf db p = some ns → pyTruthy ns = false) :
    process p q db o = (.ok ("OK", 200),
      (add_message_to_history db p "user" q).2 ++
        [Event.nsLookup p, Event.send p (.str apologyProfile)],
      (add_message_to_history db p "user" q).1) := by
  have husers : (add_message_to_history db p "user" q).1.users = db.users :=
    add_users_eq db p "user" q
  rw [process]
  simp only [get_user_namespace, husers, send_whatsapp_message, sliceableB]
  rcases hcase : (db.users.filter (fun u => pyEq u.1 p)).head? with _ | u
  · simp [hcase]
  · have hf : pyTruthy u.2 = false := h u.2 (by rw [nsOf, hcase]; rfl)
    simp [hcase, hf]

theorem strOnlyList_of_strings (l : List Json) (h : ∀ j ∈ l, ∃ s, j = .str s) :
    ∃ ss, strOnlyList l = some ss := by
  induction l with
  | nil => exact ⟨[], rfl⟩
  | cons a t ih =>
      obtain ⟨ss, hss⟩ := ih (fun j hj => h j (List.mem_cons_of_mem a hj))
      obtain ⟨s, hs⟩ := h a (List.mem_cons_self a t)
      subst hs
      exact ⟨s :: ss, by simp [strOnlyList, hss]⟩

theorem format_prompt_ok (q : Json) (hist : List Row) (ctx : List Json)
    (h : ∀ j ∈ ctx, ∃ s, j = .str s) :
    ∃ msgs, _format_prompt q hist ctx = .ok msgs := by
  cases ctx with
  | nil => exact ⟨_, rfl⟩
  | cons a t =>
      obtain ⟨ss, hss⟩ := strOnlyList_of_strings (a :: t) h
      exact ⟨_, by simp only [_format_prompt]; rw [hss]; rfl⟩

theorem get_llm_response_eq (o : Oracles) (q : Json) (hist : List Row) (ctx : List Json)
    (h : ∀ j ∈ ctx, ∃ s, j = .str s) :
    get_llm_response o q hist ctx = (genReply o, [Event.genCall]) := by
  obtain ⟨msgs, hm⟩ := format_prompt_ok q hist ctx h
  simp only [get_llm_response, hm, genReply]
  cases o.llmResp <;> rfl

theorem query_pinecone_empty_embed (o : Oracles) (q ns : Json) (k : Nat)
    (h : o.embed q = []) :
    query_pinecone o q ns k = ([], [Event.embedCall q]) := by
  simp [query_pinecone, get_bedrock_embedding, h]

theorem query_pinecone_embed (o : Oracles) (q ns : Json) (k : Nat)
    (h : o.embed q ≠ []) :
    query_pinecone o q ns k =
      (collectContexts [] (o.search ns (o.embed q) k),
       [Event.embedCall q, Event.searchCall ns k]) := by
  have hne : (o.embed q).isEmpty = false := by
    cases he : o.embed q with
    | nil => exact absurd he h
    | cons a t => rfl
  simp [query_pinecone, get_bedrock_embedding, hne]

theorem process_known_eval (p q : Json) (db : DB) (o : Oracles) (ns : Json)
    (hns : nsOf db p = some ns) (ht : pyTruthy ns = true)
    (hctx : ∀ j ∈ (query_pinecone o q ns 5).1, ∃ s, j = .str s) :
    process p q db o =
      (let db1 := (add_message_to_history db p "user" q).1
       let baseT := (add_message_to_history db p "user" q).2 ++
         [Event.nsLookup p, Event.historyFetch p] ++
         (query_pinecone o q ns 5).2 ++ [Event.genCall]
       match genReply o with
       | .error e => (.error e, baseT, db1)
       | .ok none => (.ok ("OK", 200), baseT ++ [Event.send p (.str apologyError)], db1)
       | .ok (some j) =>
           if pyTruthy j then
             if sliceableB j then
               (.ok ("OK", 200), baseT ++ [Event.send p j] ++
                 (add_message_to_history db1 p "bot" j).2,
                (add_message_to_history db1 p "bot" j).1)
             else (.error .typeError, baseT, db1)
           else (.ok ("OK", 200), baseT ++ [Event.send p (.str apologyError)], db1)) := by
  have husers : (add_message_to_history db p "user" q).1.users = db.users :=
    add_users_eq db p "user" q
  obtain ⟨u, hu, hu2⟩ : ∃ u, (db.users.filter (fun v => pyEq v.1 p)).head? = some u ∧ u.2 = ns := by
    rw [nsOf] at hns
    cases hh : (db.users.filter (fun v => pyEq v.1 p)).head? with
    | none => rw [hh] at hns; exact absurd hns (by simp)
    | some u => rw [hh] at hns; exact ⟨u, rfl, by simpa using hns⟩
  rcases hqp : query_pinecone o q ns 5 with ⟨C, E⟩
  have hctx' : ∀ j ∈ C, ∃ s, j = .str s := by
    intro j hj
    exact hctx j (by rw [hqp]; exact hj)
  rw [process]
  simp only [get_user_namespace, husers, hu, Option.map_some', hu2, ht, Bool.not_true,
    Bool.false_eq_true, if_false, get_conversation_history, hqp]
  rw [get_llm_response_eq o q _ C hctx']
  cases hg : genReply o with
  | error e => simp [hqp, List.append_assoc]
  | ok r =>
      cases r with
      | none => simp [hqp, send_whatsapp_message, sliceableB, List.append_assoc]
      | some j =>
          by_cases hj : pyTruthy j
          · by_cases hs : sliceableB j
            · simp [hqp, hj, hs, send_whatsapp_message, List.append_assoc]
            · simp [hqp, hj, hs, send_whatsapp_message, List.append_assoc]
          · simp [hqp, hj, send_whatsapp_message, sliceableB, List.append_assoc]

theorem countSend_append (a b : List Event) : countSend (a ++ b) = countSend a + countSend b :=
  List.countP_append _ _ _

theorem countSearch_append (a b : List Event) : countSearch (a ++ b) = countSearch a + countSearch b :=
  List.countP_append _ _ _

theorem countGen_append (a b : List Event) : countGen (a ++ b) = countGen a + countGen b :=
  List.countP_append _ _ _

theorem mem_add_message_events (db : DB) (p : Json) (s : String) (m : Json) (e : Event)
    (h : e ∈ (add_message_to_history db p s m).2) :
    e = Event.insertMsg p s m ∨ ∃ ids, e = Event.deleteMsgs ids := by
  rcases add_message_events_shape db p s m with hsh | ⟨ids, hsh⟩ <;> rw [hsh] at h
  · simp at h
    exact Or.inl h
  · simp at h
    rcases h with h | h
    · exact Or.inl h
    · exact Or.inr ⟨ids, h⟩

theorem insert_mem_add_message_events (db : DB) (p : Json) (s : String) (m : Json) :
    Event.insertMsg p s m ∈ (add_message_to_history db p s m).2 := by
  rcases add_message_events_shape db p s m with hsh | ⟨ids, hsh⟩ <;> rw [hsh] <;> simp

theorem countSend_add (db : DB) (p : Json) (s : String) (m : Json) :
    countSend (add_message_to_history db p s m).2 = 0 := by
  rcases add_message_events_shape db p s m with hsh | ⟨ids, hsh⟩ <;> rw [hsh] <;> rfl

theorem countSearch_add (db : DB) (p : Json) (s : String) (m : Json) :
    countSearch (add_message_to_history db p s m).2 = 0 := by
  rcases add_message_events_shape db p s m with hsh | ⟨ids, hsh⟩ <;> rw [hsh] <;> rfl

theorem countGen_add (db : DB) (p : Json) (s : String) (m : Json) :
    countGen (add_message_to_history db p s m).2 = 0 := by
  rcases add_message_events_shape db p s m with hsh | ⟨ids, hsh⟩ <;> rw [hsh] <;> rfl

theorem countSend_qp (o : Oracles) (q ns : Json) (k : Nat) :
    countSend (query_pinecone o q ns k).2 = 0 := by
  by_cases h : o.embed q = []
  · rw [query_pinecone_empty_embed o q ns k h]
    rfl
  · rw [query_pinecone_embed o q ns k h]
    rfl

theorem mem_qp_events (o : Oracles) (q ns : Json) (k : Nat) (e : Event)
    (h : e ∈ (query_pinecone o q ns k).2) :
    e = Event.embedCall q ∨ e = Event.searchCall ns k := by
  by_cases hq : o.embed q = []
  · rw [query_pinecone_empty_embed o q ns k hq] at h
    simp at h
    exact Or.inl h
  · rw [query_pinecone_embed o q ns k hq] at h
    simp at h
    exact h

theorem handle_message_processable (payload p q : Json) (db : DB) (o : Oracles)
    (hp : parse_whatsapp_message payload = .ok (some (p, q)))
    (htp : pyTruthy p = true) (htq : pyTruthy q = true) :
    handle_message payload db o = process p q db o := by
  rw [handle_message, hp]
  simp [htp, htq]

theorem process_trace_prefix (p q : Json) (db : DB) (o : Oracles) :
    ∃ rest, (process p q db o).2.1 =
      (add_message_to_history db p "user" q).2 ++ Event.nsLookup p :: rest := by
  rw [process]
  simp only [get_user_namespace]
  rcases hh : ((add_message_to_history db p "user" q).1.users.filter
      (fun u => pyEq u.1 p)).head? with _ | u
  · simp only [hh, Option.map_none', send_whatsapp_message, sliceableB]
    exact ⟨_, by simp; rfl⟩
  · simp only [hh, Option.map_some']
    by_cases ht : pyTruthy u.2
    · simp only [ht, Bool.not_true, Bool.false_eq_true, if_false]
      rcases hg : get_llm_response o q
          (get_conversation_history (add_message_to_history db p "user" q).1 p 20).1
          (query_pinecone o q u.2 5).1 with ⟨res, ev5⟩
      rcases hqp : query_pinecone o q u.2 5 with ⟨C, E⟩
      rw [hqp] at hg
      simp only [get_conversation_history] at hg
      simp only [get_conversation_history, hqp, hg]
      cases res with
      | error e => exact ⟨_, by simp; rfl⟩
      | ok r =>
          cases r with
          | none =>
              simp only [send_whatsapp_message, sliceableB]
              exact ⟨_, by simp; rfl⟩
          | some j =>
              by_cases hj : pyTruthy j
              · by_cases hs : sliceableB j
                · simp only [hj, hs, if_true, send_whatsapp_message]
                  exact ⟨_, by simp; rfl⟩
                · simp only [hj, hs, if_true, Bool.false_eq_true, if_false]
                  exact ⟨_, by simp; rfl⟩
              · simp only [hj, Bool.false_eq_true, if_false, send_whatsapp_message, sliceableB]
                exact ⟨_, by simp; rfl⟩
    · have ht' : pyTruthy u.2 = false := by revert ht; cases pyTruthy u.2 <;> simp
      simp only [ht', Bool.not_false, if_true, send_whatsapp_message, sliceableB]
      exact ⟨_, by simp; rfl⟩

theorem sends_append (a b : List Event) : sends (a ++ b) = sends a ++ sends b :=
  List.filter_append a b

theorem botInserts_append (a b : List Event) :
    botInserts (a ++ b) = botInserts a ++ botInserts b :=
  List.filter_append a b

theorem sends_add (db : DB) (p : Json) (s : String) (m : Json) :
    sends (add_message_to_history db p s m).2 = [] := by
  rcases add_message_events_shape db p s m with hsh | ⟨ids, hsh⟩ <;> rw [hsh] <;> rfl

theorem sends_qp (o : Oracles) (q ns : Json) (k : Nat) :
    sends (query_pinecone o q ns k).2 = [] := by
  by_cases h : o.embed q = []
  · rw [query_pinecone_empty_embed o q ns k h]
    rfl
  · rw [query_pinecone_embed o q ns k h]
    rfl

theorem botInserts_add_user (db : DB) (p : Json) (m : Json) :
    botInserts (add_message_to_history db p "user" m).2 = [] := by
  rcases add_message_events_shape db p "user" m with hsh | ⟨ids, hsh⟩ <;> rw [hsh] <;> rfl

theorem botInserts_add_bot (db : DB) (p : Json) (m : Json) :
    botInserts (add_message_to_history db p "bot" m).2 = [Event.insertMsg p "bot" m] := by
  rcases add_message_events_shape db p "bot" m with hsh | ⟨ids, hsh⟩ <;> rw [hsh] <;> rfl

theorem botInserts_qp (o : Oracles) (q ns : Json) (k : Nat) :
    botInserts (query_pinecone o q ns k).2 = [] := by
  by_cases h : o.embed q = []
  · rw [query_pinecone_empty_embed o q ns k h]
    rfl
  · rw [query_pinecone_embed o q ns k h]
    rfl

/-- C1 (amended): for every payload decoding to a processable text
message, the inbound user turn is persisted before namespace
resolution regardless of downstream outcome; and provided the
generation outcome returns normally with a failure or a sliceable
truthy reply and retrieved context chunks are strings (no uncaught
type error), every terminal path acknowledges 200 `OK`, sends exactly
one outbound message to the sender (the generated reply or one of the
two fixed apology texts), and the bot turn is persisted exactly on the
success path. -/
theorem pipeline_terminal_spec (payload p q : Json) (db : DB) (o : Oracles)
    (hp : parse_whatsapp_message payload = .ok (some (p, q)))
    (htp : pyTruthy p = true) (htq : pyTruthy q = true) :
    (∃ pre rest, (handle_message payload db o).2.1 = pre ++ Event.nsLookup p :: rest ∧
       Event.insertMsg p "user" q ∈ pre) ∧
    ((∃ r, genReply o = .ok r ∧ ∀ j, r = some j → pyTruthy j = true → sliceableB j = true) →
     (∀ ns : Json, ∀ j ∈ (query_pinecone o q ns 5).1, ∃ s, j = Json.str s) →
     (handle_message payload db o).1 = .ok ("OK", 200) ∧
     (∃ b, sends (handle_message payload db o).2.1 = [Event.send p b] ∧
        (b = .str apologyProfile ∨ b = .str apologyError ∨ genReply o = .ok (some b))) ∧
     (botInserts (handle_message payload db o).2.1 ≠ [] ↔
        ((∃ ns, nsOf db p = some ns ∧ pyTruthy ns = true) ∧
         (∃ j, genReply o = .ok (some j) ∧ pyTruthy j = true)))) := by
  rw [handle_message_processable payload p q db o hp htp htq]
  constructor
  · obtain ⟨rest, hrest⟩ := process_trace_prefix p q db o
    exact ⟨(add_message_to_history db p "user" q).2, rest, hrest,
      insert_mem_add_message_events db p "user" q⟩
  · rintro ⟨r, hr, hslice⟩ hctx
    by_cases hk : ∃ ns, nsOf db p = some ns ∧ pyTruthy ns = true
    · obtain ⟨ns, hns, htns⟩ := hk
      rw [process_known_eval p q db o ns hns htns (hctx ns), hr]
      cases r with
      | none =>
          refine ⟨rfl, ⟨.str apologyError, ?_, Or.inr (Or.inl rfl)⟩, ?_⟩
          · simp only [sends_append, sends_add, sends_qp]
            rfl
          · simp only [botInserts_append, botInserts_add_user, botInserts_qp]
            constructor
            · intro h
              exact absurd rfl h
            · rintro ⟨-, j, hj, -⟩
              exact absurd hj (by simp)
      | some j =>
          by_cases hj : pyTruthy j
          · have hs : sliceableB j = true := hslice j rfl hj
            simp only [hj, hs, if_true]
            refine ⟨trivial, ⟨j, ?_, Or.inr (Or.inr rfl)⟩, ?_⟩
            · simp only [sends_append, sends_add, sends_qp]
              rfl
            · simp only [botInserts_append, botInserts_add_user, botInserts_qp,
                botInserts_add_bot]
              constructor
              · intro _
                exact ⟨⟨ns, hns, htns⟩, ⟨j, rfl, hj⟩⟩
              · intro _
                simp [botInserts]
          · have hj' : pyTruthy j = false := by revert hj; cases pyTruthy j <;> simp
            simp only [hj', Bool.false_eq_true, if_false]
            refine ⟨trivial, ⟨.str apologyError, ?_, Or.inr (Or.inl rfl)⟩, ?_⟩
            · simp only [sends_append, sends_add, sends_qp]
              rfl
            · simp only [botInserts_append, botInserts_add_user, botInserts_qp]
              constructor
              · intro h
                exact absurd rfl h
              · rintro ⟨-, j', hj2, ht2⟩
                have hjj : j' = j := by simpa using hj2.symm
                subst hjj
                rw [ht2] at hj'
                cases hj'
    · have hfal : ∀ ns, nsOf db p = some ns → pyTruthy ns = false := by
        intro ns h'
        by_contra hcon
        exact hk ⟨ns, h', by revert hcon; cases pyTruthy ns <;> simp⟩
      rw [process_unknown p q db o hfal]
      refine ⟨rfl, ⟨.str apologyProfile, ?_, Or.inl rfl⟩, ?_⟩
      · simp only [sends_append, sends_add]
        rfl
      · simp only [botInserts_append, botInserts_add_user]
        constructor
        · intro h
          exact absurd rfl h
        · rintro ⟨⟨ns, hns, htns⟩, -⟩
          rw [hfal ns hns] at htns
          cases htns

/-- C2: for every sender and message, after append (insert followed by
trim) the sender's stored row count is at most 20; when the
post-insert count exceeds 20, exactly `count - 20` rows go (they are
absent from the store afterwards), they are the chronologically oldest
(every deleted row is older than every kept one), remaining rows keep
their relative order (the new history is a sublist of the old) and
rows of other senders are untouched; a subsequent `fetch_recent`
returns exactly the surviving (20 most recent) rows oldest-first. -/
theorem add_message_trim_spec (db : DB) (phone : Json) (sender : String) (msg : Json)
    (hwf : WF db) :
    let db1 := insertRow db phone sender msg
    let db' := (add_message_to_history db phone sender msg).1
    let f := rowsFor db1.history phone
    let n := f.length
    (rowsFor db'.history phone).length ≤ 20 ∧
    db'.history.Sublist db1.history ∧
    rowsFor db'.history phone = f.drop (n - 20) ∧
    db'.history.filter (fun r => !(pyEq r.phone phone)) =
      db1.history.filter (fun r => !(pyEq r.phone phone)) ∧
    (n > 20 → (∀ r ∈ f.take (n - 20), r ∉ db'.history) ∧
      (∀ r ∈ f.take (n - 20), ∀ r' ∈ f.drop (n - 20), r.ts < r'.ts)) ∧
    (get_conversation_history db' phone 20).1 = f.drop (n - 20) := by
  intro db1 db' f n
  have hwf1 : WF db1 := WF_insertRow db hwf phone sender msg
  have hfs : f.Pairwise (fun a b => a.ts < b.ts) :=
    List.Pairwise.sublist (List.filter_sublist _) hwf1.1
  have hfid : f.Pairwise (fun a b => a.id < b.id) :=
    List.Pairwise.sublist (List.filter_sublist _) hwf1.2.1
  have hfne : f.Pairwise (fun a b => a.id ≠ b.id) :=
    hfid.imp (fun h => Nat.ne_of_lt h)
  have hsort : sortByTs (rowsFor db1.history phone) = f := sortByTs_eq_of_sorted _ hfs
  have hfn : f.length = n := rfl
  by_cases hn : f.length > 20
  · have hdb' : db'.history = db1.history.filter
        (fun r => !(((f.take (f.length - 20)).map Row.id).contains r.id)) := by
      show (add_message_to_history db phone sender msg).1.history = _
      rw [add_message_to_history]
      simp only [hsort]
      rw [if_pos hn]
    have hrows : rowsFor db'.history phone = f.drop (n - 20) := by
      rw [hdb', rowsFor_filter_comm]
      exact filter_take_ids_eq_drop (n - 20) f hfne
    have hsub : db'.history.Sublist db1.history := by
      rw [hdb']
      exact List.filter_sublist _
    refine ⟨?_, hsub, hrows, ?_, ?_, ?_⟩
    · rw [hrows]
      simp only [List.length_drop]
      omega
    · rw [hdb', List.filter_filter]
      apply List.filter_congr
      intro x hx
      by_cases hpm : pyEq x.phone phone
      · simp [hpm]
      · have hnotin : ¬ (x.id ∈ (f.take (f.length - 20)).map Row.id) := by
          intro hmem
          obtain ⟨r', hr', hrid⟩ := List.mem_map.mp hmem
          have hr'f : r' ∈ f := List.mem_of_mem_take hr'
          have hr'db : r' ∈ db1.history := List.mem_of_mem_filter hr'f
          have hr'pm : pyEq r'.phone phone := by
            have := List.of_mem_filter hr'f
            simpa using this
          have hne : x ≠ r' := by
            intro he
            subst he
            exact hpm hr'pm
          have hpair : db1.history.Pairwise (fun a b => a.id ≠ b.id) :=
            hwf1.2.1.imp (fun h => Nat.ne_of_lt h)
          exact (List.Pairwise.forall (fun a b h => h.symm) hpair hx hr'db hne) hrid.symm
        have hcf : ((f.take (f.length - 20)).map Row.id).contains x.id = false := by
          rw [Bool.eq_false_iff]
          intro hc
          exact hnotin ((contains_true_iff _ _).mp hc)
        simp only [hcf, Bool.not_false, Bool.and_true, Bool.true_and]
    · intro _
      constructor
      · intro r hr hrdb
        rw [hdb'] at hrdb
        have hpd := List.of_mem_filter hrdb
        have hmem : r.id ∈ (f.take (f.length - 20)).map Row.id :=
          List.mem_map.mpr ⟨r, hr, rfl⟩
        rw [Bool.not_eq_true', Bool.eq_false_iff] at hpd
        exact hpd ((contains_true_iff _ _).mpr hmem)
      · intro r hr r' hr'
        have h2 := List.Pairwise.rel_of_mem_take_of_mem_drop hfs hr hr'
        exact h2
    · have hsorted' : (rowsFor db'.history phone).Pairwise (fun a b => a.ts < b.ts) := by
        rw [hrows]
        exact List.Pairwise.sublist (List.drop_sublist _ _) hfs
      have hlen' : (rowsFor db'.history phone).length ≤ 20 := by
        rw [hrows]
        simp only [List.length_drop]
        omega
      rw [fetch_eq_of_sorted db' phone hsorted' hlen', hrows]
  · have hdb' : db'.history = db1.history := by
      show (add_message_to_history db phone sender msg).1.history = _
      rw [add_message_to_history]
      simp only [hsort]
      rw [if_neg hn]
    have hn0 : n - 20 = 0 := by omega
    have hr1 : rowsFor db'.history phone = f := by
      rw [hdb']
    refine ⟨?_, ?_, ?_, ?_, ?_, ?_⟩
    · rw [hr1]
      omega
    · rw [hdb']
    · rw [hr1, hn0, List.drop_zero]
    · rw [hdb']
    · intro h
      omega
    · rw [fetch_eq_of_sorted db' phone (by rw [hr1]; exact hfs) (by rw [hr1]; omega),
        hr1, hn0, List.drop_zero]

/-- Witness for the append/trim theorem at a concrete over-full
store. -/
theorem add_message_trim_spec_witness :
    WF dbTrim ∧
    (let db1 := insertRow dbTrim (.str "u") "user" (.str "hi")
     let db' := (add_message_to_history dbTrim (.str "u") "user" (.str "hi")).1
     let f := rowsFor db1.history (.str "u")
     let n := f.length
     (rowsFor db'.history (.str "u")).length ≤ 20 ∧
     db'.history.Sublist db1.history ∧
     rowsFor db'.history (.str "u") = f.drop (n - 20) ∧
     db'.history.filter (fun r => !(pyEq r.phone (.str "u"))) =
       db1.history.filter (fun r => !(pyEq r.phone (.str "u"))) ∧
     (n > 20 → (∀ r ∈ f.take (n - 20), r ∉ db'.history) ∧
       (∀ r ∈ f.take (n - 20), ∀ r' ∈ f.drop (n - 20), r.ts < r'.ts)) ∧
     (get_conversation_history db' (.str "u") 20).1 = f.drop (n - 20)) :=
  ⟨by constructor
      · decide
      · constructor
        · decide
        · decide,
   add_message_trim_spec dbTrim (.str "u") "user" (.str "hi")
     (by constructor
         · decide
         · constructor
           · decide
           · decide)⟩



theorem dropLit_msgLit_nil : dropLit msgLit [] = none := rfl

theorem matchAt_nil : matchAt [] = none := rfl

theorem reSearch_eq_none_iff (cs : List Char) :
    reSearch cs = none ↔ ∀ i, matchAt (cs.drop i) = none := by
  induction cs with
  | nil =>
      simp only [reSearch, List.drop_nil]
      exact ⟨fun _ i => matchAt_nil, fun _ => trivial⟩
  | cons c rest ih =>
      constructor
      · intro h i
        rw [reSearch] at h
        cases hm : matchAt (c :: rest) with
        | some cap => rw [hm] at h; cases h
        | none =>
            rw [hm] at h
            cases i with
            | zero => exact hm
            | succ i => exact (ih.mp h) i
      · intro h
        rw [reSearch]
        have h0 := h 0
        simp only [List.drop_zero] at h0
        rw [h0]
        exact ih.mpr (fun i => h (i + 1))

theorem reSearch_eq_some_of_first (cs : List Char) (i : Nat) (cap : String)
    (hm : matchAt (cs.drop i) = some cap)
    (hmin : ∀ j, j < i → matchAt (cs.drop j) = none) :
    reSearch cs = some cap := by
  induction cs generalizing i with
  | nil =>
      rw [List.drop_nil] at hm
      rw [matchAt_nil] at hm
      cases hm
  | cons c rest ih =>
      cases i with
      | zero =>
          simp only [List.drop_zero] at hm
          rw [reSearch, hm]
      | succ i =>
          have h0 := hmin 0 (Nat.succ_pos i)
          simp only [List.drop_zero] at h0
          rw [reSearch, h0]
          exact ih i hm (fun j hj => hmin (j + 1) (Nat.succ_lt_succ hj))

theorem dropLit_isSome_of_matchAt (cs : List Char) (cap : String)
    (h : matchAt cs = some cap) : (dropLit msgLit cs).isSome = true := by
  rw [matchAt] at h
  cases hd : dropLit msgLit cs with
  | none => rw [hd] at h; cases h
  | some r => rfl

theorem hasMsgLit_of_dropLit (cs : List Char) (i : Nat)
    (h : (dropLit msgLit (cs.drop i)).isSome = true) : hasMsgLit cs = true := by
  induction cs generalizing i with
  | nil =>
      rw [List.drop_nil, dropLit_msgLit_nil] at h
      cases h
  | cons c rest ih =>
      cases i with
      | zero =>
          simp only [List.drop_zero] at h
          rw [hasMsgLit]
          simp [h]
      | succ i =>
          rw [hasMsgLit, ih i h]
          simp

/-- C7 (amended): for every generation content that fails strict JSON
parsing, if no position matches the salvage pattern the result is the
parse-error failure; if some position matches, the capture of the
earliest matching position is returned — even when that capture is the
empty string. -/
theorem salvage_spec (raw : String) (hfail : strictParse raw = none) :
    ((∀ i, matchAt (raw.data.drop i) = none) → parse_llm_content raw = .ok none) ∧
    (∀ i cap, matchAt (raw.data.drop i) = some cap →
       (∀ j, j < i → matchAt (raw.data.drop j) = none) →
       parse_llm_content raw = .ok (some (.str cap))) := by
  constructor
  · intro hnone
    have hre : reSearch raw.data = none := (reSearch_eq_none_iff raw.data).mpr hnone
    cases hh : hasMsgLit raw.data
    · simp [parse_llm_content, hfail, hh]
    · simp [parse_llm_content, hfail, hh, hre]
  · intro i cap hm hmin
    have hre : reSearch raw.data = some cap := reSearch_eq_some_of_first raw.data i cap hm hmin
    have hml : hasMsgLit raw.data = true :=
      hasMsgLit_of_dropLit raw.data i (dropLit_isSome_of_matchAt _ cap hm)
    simp [parse_llm_content, hfail, hml, hre]

theorem pyEq_text_iff (tv : Json) : pyEq tv (.str "text") = true ↔ tv = .str "text" := by
  cases tv <;> simp [pyEq]

theorem pyGetAttr_ok (x : Json) (k : String) (d y : Json) (h : pyGetAttr x k d = .ok y) :
    ∃ fs, x = .obj fs ∧ (dictGet fs k).getD d = y := by
  cases x <;> simp [pyGetAttr] at h
  case obj fs => exact ⟨fs, rfl, h⟩

theorem pyGetItem_ok (x : Json) (k : String) (y : Json) (h : pyGetItem x k = .ok y) :
    ∃ fs, x = .obj fs ∧ dictGet fs k = some y := by
  cases x <;> simp [pyGetItem] at h
  case obj fs =>
    cases hd : dictGet fs k with
    | none => rw [hd] at h; cases h
    | some v =>
        rw [hd] at h
        cases h
        exact ⟨fs, rfl, hd⟩

theorem pyIndex0_ok (x y : Json) (h : pyIndex0 x = .ok y) :
    (∃ xs, x = .arr (y :: xs)) ∨
    (∃ s c cs, x = .str s ∧ s.data = c :: cs ∧ y = .str (String.mk [c])) := by
  cases x with
  | arr xs =>
      cases xs with
      | nil => cases h
      | cons a t =>
          left
          cases h
          exact ⟨t, rfl⟩
  | str s =>
      right
      rw [pyIndex0] at h
      cases hd : s.data with
      | nil => rw [hd] at h; cases h
      | cons c cs =>
          rw [hd] at h
          cases h
          exact ⟨s, c, cs, rfl, hd, rfl⟩
  | null => cases h
  | bool b => cases h
  | num n => cases h
  | fnum a b c d => cases h
  | inf b => cases h
  | nan => cases h
  | obj fs => cases h

theorem getD_truthy_some (ov : Option Json) (v : Json) (h : ov.getD .null = v)
    (ht : pyTruthy v = true) : ov = some v := by
  cases ov with
  | none =>
      simp at h
      rw [← h] at ht
      cases ht
  | some w => simpa using h

theorem not_not_truthy {b : Bool} (h : ¬ (!b) = true) : b = true := by
  revert h
  cases b <;> simp

theorem decode_forward (payload p q : Json) (h : parseCore payload = .ok (some (p, q))) :
    DecodeSuccess payload p q := by
  rw [parseCore] at h
  split at h
  · cases h
  rename_i entry h1
  split at h
  · cases h
  rename_i hif1
  split at h
  · cases h
  rename_i t1 h2
  split at h
  · cases h
  rename_i e0 h3
  split at h
  · cases h
  rename_i changesV h4
  split at h
  · cases h
  rename_i hif2
  split at h
  · cases h
  rename_i t2 h5
  split at h
  · cases h
  rename_i c0 h6
  split at h
  · cases h
  rename_i valueV h7
  split at h
  · cases h
  rename_i hif3
  split at h
  · cases h
  rename_i v h8
  split at h
  · cases h
  rename_i messagesV h9
  split at h
  · cases h
  rename_i hif4
  split at h
  · cases h
  rename_i msgs h10
  split at h
  · cases h
  rename_i md h11
  split at h
  · cases h
  rename_i tmp h12
  split at h
  · cases h
  rename_i tv h13
  split at h
  case isFalse =>
    split at h
    · cases h
    · cases h
  rename_i htytext
  split at h
  · cases h
  rename_i sender h14
  split at h
  · cases h
  rename_i textObj h15
  split at h
  · cases h
  rename_i body h16
  -- h : .ok (some (sender, body)) = .ok (some (p, q))
  have hsb : sender = p ∧ body = q := by
    injection h with h'
    injection h' with h''
    injection h'' with ha hb
    exact ⟨ha, hb⟩
  obtain ⟨rfl, rfl⟩ := hsb
  -- reconstruct
  obtain ⟨pf, rfl, hentry⟩ := pyGetAttr_ok _ _ _ _ h1
  have htr := not_not_truthy hif1
  have hentry' : dictGet pf "entry" = some entry := getD_truthy_some _ _ hentry htr
  obtain ⟨pf', hpf', hlook1⟩ := pyGetItem_ok _ _ _ h2
  injection hpf' with hpf''
  have ht1 : entry = t1 := by
    rw [← hpf''] at hlook1
    rw [hentry'] at hlook1
    exact Option.some.inj hlook1
  subst ht1
  obtain ⟨e0f, rfl, hchv⟩ := pyGetAttr_ok _ _ _ _ h4
  have hesx : ∃ xs, entry = .arr (Json.obj e0f :: xs) := by
    rcases pyIndex0_ok _ _ h3 with h' | ⟨s, c, cs', hstr, hsd, hy⟩
    · exact h'
    · cases hy
  obtain ⟨es', hes⟩ := hesx
  have htrc := not_not_truthy hif2
  have hch' : dictGet e0f "changes" = some changesV := getD_truthy_some _ _ hchv htrc
  obtain ⟨e0f', he0f', hlook2⟩ := pyGetItem_ok _ _ _ h5
  injection he0f' with he0f''
  have ht2 : changesV = t2 := by
    rw [← he0f''] at hlook2
    rw [hch'] at hlook2
    exact Option.some.inj hlook2
  subst ht2
  obtain ⟨c0f, rfl, hvalv⟩ := pyGetAttr_ok _ _ _ _ h7
  have hcsx : ∃ xs, changesV = .arr (Json.obj c0f :: xs) := by
    rcases pyIndex0_ok _ _ h6 with h' | ⟨s2, c2, cs2', hstr2, hsd2, hy2⟩
    · exact h'
    · cases hy2
  obtain ⟨cs2, hcs⟩ := hcsx
  have htrv := not_not_truthy hif3
  have hval' : dictGet c0f "value" = some valueV := getD_truthy_some _ _ hvalv htrv
  obtain ⟨c0f', hc0f', hlook3⟩ := pyGetItem_ok _ _ _ h8
  injection hc0f' with hc0f''
  have hv : valueV = v := by
    rw [← hc0f''] at hlook3
    rw [hval'] at hlook3
    exact Option.some.inj hlook3
  subst hv
  obtain ⟨vf, rfl, hmsgv⟩ := pyGetAttr_ok _ _ _ _ h9
  have htrm := not_not_truthy hif4
  have hmsg' : dictGet vf "messages" = some messagesV := getD_truthy_some _ _ hmsgv htrm
  obtain ⟨vf', hvf', hlook4⟩ := pyGetItem_ok _ _ _ h10
  injection hvf' with hvf''
  have hm : messagesV = msgs := by
    rw [← hvf''] at hlook4
    rw [hmsg'] at hlook4
    exact Option.some.inj hlook4
  subst hm
  obtain ⟨mdf, rfl, htyv⟩ := pyGetAttr_ok _ _ _ _ h12
  have hmsx : ∃ xs, messagesV = .arr (Json.obj mdf :: xs) := by
    rcases pyIndex0_ok _ _ h11 with h' | ⟨s3, c3, cs3', hstr3, hsd3, hy3⟩
    · exact h'
    · cases hy3
  obtain ⟨ms', hms⟩ := hmsx
  obtain ⟨mdf', hmdf', hlook5⟩ := pyGetItem_ok _ _ _ h13
  injection hmdf' with hmdf''
  rw [← hmdf''] at hlook5
  obtain ⟨mdf2, hmdf2, hfrom⟩ := pyGetItem_ok _ _ _ h14
  injection hmdf2 with hmdf2'
  rw [← hmdf2'] at hfrom
  obtain ⟨mdf3, hmdf3, htextl⟩ := pyGetItem_ok _ _ _ h15
  injection hmdf3 with hmdf3'
  rw [← hmdf3'] at htextl
  obtain ⟨tf, rfl, hbody⟩ := pyGetItem_ok _ _ _ h16
  have htvt : tv = .str "text" := (pyEq_text_iff tv).mp htytext
  subst htvt
  subst hes
  subst hcs
  subst hms
  exact ⟨pf, .obj e0f :: es', e0f, .obj c0f :: cs2, c0f, vf, .obj mdf :: ms', mdf, tf,
    rfl, hentry', rfl, hch', rfl, hval', hmsg', rfl, hlook5, hfrom, htextl, hbody⟩

theorem decode_backward (payload p q : Json) (hd : DecodeSuccess payload p q) :
    parseCore payload = .ok (some (p, q)) := by
  obtain ⟨pf, es, e0f, cs, c0f, vf, ms, mdf, tf, rfl, hentry, hhead, hch, hc0, hval,
    hmsg, hm0, hty, hfrom, htext, hbody⟩ := hd
  cases es with
  | nil => cases hhead
  | cons e0 es' =>
  cases cs with
  | nil => cases hc0
  | cons c0v cs' =>
  cases ms with
  | nil => cases hm0
  | cons m0 ms' =>
  have he0 : e0 = .obj e0f := by simpa using hhead
  subst he0
  have hc0v : c0v = .obj c0f := by simpa using hc0
  subst hc0v
  have hm0v : m0 = .obj mdf := by simpa using hm0
  subst hm0v
  have hvfne : vf ≠ [] := by
    intro he
    subst he
    simp [dictGet] at hmsg
  rw [parseCore]
  simp [pyGetAttr, pyGetItem, pyIndex0, pyTruthy, pyEq, hentry, hch, hval, hmsg,
    hty, hfrom, htext, hbody, hvfne]

/-- C5 (amended): decode succeeds, returning the sender from `from`
and the text from `text.body`, exactly when the payload carries the
full nested structure — non-empty entry/changes/messages lists of
objects, first message of type `text` with `from` present and a `text`
object holding `body`; a payload failing these checks yields the
NotAMessage acknowledgement or an uncaught type/attribute error, and
in both cases the handler performs no store, search or generation
call (its event trace is empty). -/
theorem decode_spec (payload p q : Json) (db : DB) (o : Oracles) :
    (parse_whatsapp_message payload = .ok (some (p, q)) ↔ DecodeSuccess payload p q) ∧
    (parse_whatsapp_message payload = .ok none →
       handle_message payload db o = (.ok ("OK", 200), [], db)) ∧
    (∀ e, parse_whatsapp_message payload = .error e →
       handle_message payload db o = (.error e, [], db) ∧
       (e = .typeError ∨ e = .attributeError)) := by
  refine ⟨⟨?_, ?_⟩, ?_, ?_⟩
  · intro h
    have hcore : parseCore payload = .ok (some (p, q)) := by
      rw [parse_whatsapp_message] at h
      cases hc : parseCore payload with
      | ok r =>
          rw [hc] at h
          simp at h
          rw [h]
      | error e =>
          rw [hc] at h
          cases e <;> simp at h
    exact decode_forward payload p q hcore
  · intro hd
    rw [parse_whatsapp_message, decode_backward payload p q hd]
  · intro h
    rw [handle_message, h]
  · intro e h
    constructor
    · rw [handle_message, h]
    · rw [parse_whatsapp_message] at h
      cases hc : parseCore payload with
      | ok r =>
          rw [hc] at h
          simp at h
      | error e' =>
          rw [hc] at h
          cases e' with
          | keyError => simp at h
          | indexError => simp at h
          | typeError =>
              simp at h
              exact Or.inl h.symm
          | attributeError =>
              simp at h
              exact Or.inr h.symm


theorem process_ok_of_wellbehaved (p q : Json) (db : DB) (o : Oracles)
    (hgen : ∃ r, genReply o = .ok r ∧ ∀ j, r = some j → pyTruthy j = true → sliceableB j = true)
    (hctx : ∀ ns : Json, ∀ j ∈ (query_pinecone o q ns 5).1, ∃ s, j = Json.str s) :
    (process p q db o).1 = .ok ("OK", 200) := by
  obtain ⟨r, hr, hslice⟩ := hgen
  by_cases hk : ∃ ns, nsOf db p = some ns ∧ pyTruthy ns = true
  · obtain ⟨ns, hns, htns⟩ := hk
    rw [process_known_eval p q db o ns hns htns (hctx ns), hr]
    cases r with
    | none => rfl
    | some j =>
        by_cases hj : pyTruthy j
        · have hs := hslice j rfl hj
          simp only [hj, hs, if_true]
        · have hj' : pyTruthy j = false := by revert hj; cases pyTruthy j <;> simp
          simp only [hj', Bool.false_eq_true, if_false]
  · have hfal : ∀ ns, nsOf db p = some ns → pyTruthy ns = false := by
      intro ns h'
      by_contra hcon
      exact hk ⟨ns, h', by revert hcon; cases pyTruthy ns <;> simp⟩
    rw [process_unknown p q db o hfal]

theorem collectContexts_eq_filterMap (ms : List Json) (acc : List Json) :
    collectContexts acc ms = acc ++ ms.filterMap matchText := by
  induction ms generalizing acc with
  | nil => simp [collectContexts]
  | cons m rest ih =>
      cases hm : matchText m with
      | some t => simp [collectContexts, hm, ih]
      | none => simp [collectContexts, hm, ih]

/-- C3: for every sender with no namespace row in the identity store,
the pipeline acknowledges, sends exactly the fixed profile-not-found
apology to that sender, performs no similarity search and no generation
call, and has already recorded the inbound user message before the
namespace lookup. -/
theorem unknown_user_spec (payload p q : Json) (db : DB) (o : Oracles)
    (hp : parse_whatsapp_message payload = .ok (some (p, q)))
    (htp : pyTruthy p = true) (htq : pyTruthy q = true)
    (hns : db.users.filter (fun u => pyEq u.1 p) = []) :
    (handle_message payload db o).1 = .ok ("OK", 200) ∧
    sends (handle_message payload db o).2.1 = [Event.send p (.str apologyProfile)] ∧
    countSearch (handle_message payload db o).2.1 = 0 ∧
    countGen (handle_message payload db o).2.1 = 0 ∧
    (∃ pre rest, (handle_message payload db o).2.1 = pre ++ Event.nsLookup p :: rest ∧
       Event.insertMsg p "user" q ∈ pre) := by
  rw [handle_message_processable payload p q db o hp htp htq]
  have hfal : ∀ ns, nsOf db p = some ns → pyTruthy ns = false := by
    intro ns h'
    rw [nsOf, hns] at h'
    simp at h'
  rw [process_unknown p q db o hfal]
  refine ⟨rfl, ?_, ?_, ?_, ?_⟩
  · simp only [sends_append, sends_add]
    rfl
  · rw [countSearch_append, countSearch_add]
    rfl
  · rw [countGen_append, countGen_add]
    rfl
  · exact ⟨(add_message_to_history db p "user" q).2, [Event.send p (.str apologyProfile)],
      rfl, insert_mem_add_message_events db p "user" q⟩

/-- C4 (amended): for every POST body whose payload parse completes
(raising no uncaught type error) and whose generation outcome returns
normally with a failure or a sliceable truthy reply, and whose
retrieved context chunks are strings, the handler responds 200 `OK`
regardless of internal outcome; ill-typed payloads or non-object
generation content crash the handler instead. -/
theorem webhook_ack_spec (payload : Json) (db : DB) (o : Oracles)
    (hparse : ∃ r, parse_whatsapp_message payload = .ok r)
    (hgen : ∃ r, genReply o = .ok r ∧ ∀ j, r = some j → pyTruthy j = true → sliceableB j = true)
    (hctx : ∀ q ns : Json, ∀ j ∈ (query_pinecone o q ns 5).1, ∃ s, j = Json.str s) :
    (handle_message payload db o).1 = .ok ("OK", 200) := by
  obtain ⟨r, hr⟩ := hparse
  rw [handle_message, hr]
  cases r with
  | none => rfl
  | some pq =>
      obtain ⟨p, q⟩ := pq
      by_cases hpq : (!pyTruthy p || !pyTruthy q) = true
      · simp [hpq]
      · show (if (!pyTruthy p || !pyTruthy q) = true
            then ((Except.ok ("OK", 200) : Except PyExn (String × Nat)), ([] : List Event), db)
            else process p q db o).1 = Except.ok ("OK", 200)
        rw [if_neg hpq]
        exact process_ok_of_wellbehaved p q db o hgen (hctx q)

/-- C4 counterexample: a POST body whose `entry` field is a number
makes the traversal index an `int`, an uncaught `TypeError`: the
handler does not return 200 `OK`. -/
theorem webhook_ack_cex :
    handle_message typeConfusedPayload emptyDb sampleOracles =
      (.error .typeError, [], emptyDb) := rfl

/-- Witness for the amended acknowledgement theorem on the complete
sample payload. -/
theorem webhook_ack_spec_witness :
    (∃ r, parse_whatsapp_message samplePayload = .ok r) ∧
    (handle_message samplePayload sampleDb sampleOracles).1 = .ok ("OK", 200) :=
  ⟨⟨some (.str "11234567890", .str "Is breakfast included?"), rfl⟩,
   webhook_ack_spec samplePayload sampleDb sampleOracles
     ⟨some (.str "11234567890", .str "Is breakfast included?"), rfl⟩
     ⟨some (.str "Yes"), rfl, fun j hj _ => by cases hj; rfl⟩
     (fun q ns j hj => absurd hj (List.not_mem_nil j))⟩

/-- C6: a generation reply whose content is the documented structured
JSON object yields exactly the `message` field, `"Yes"`; altering the
diagnostic fields does not change what propagates. -/
theorem generate_message_spec :
    parse_llm_content goodContent = .ok (some (.str "Yes")) ∧
    parse_llm_content altContent = .ok (some (.str "Yes")) := ⟨rfl, rfl⟩

/-- C8: retrieval with an empty embedding short-circuits to the empty
sequence with no similarity search; otherwise the returned chunks are
exactly the truthy `text` metadata fields of the backend's matches in
ranking order (matches lacking text are dropped, nothing substituted),
and exactly one search is performed. -/
theorem retrieve_spec (o : Oracles) (q ns : Json) (k : Nat) :
    (o.embed q = [] →
       query_pinecone o q ns k = ([], [Event.embedCall q]) ∧
       countSearch (query_pinecone o q ns k).2 = 0) ∧
    (o.embed q ≠ [] →
       (query_pinecone o q ns k).1 = (o.search ns (o.embed q) k).filterMap matchText ∧
       countSearch (query_pinecone o q ns k).2 = 1 ∧
       (∀ c ∈ (query_pinecone o q ns k).1, ∃ m ∈ o.search ns (o.embed q) k,
          matchText m = some c)) := by
  constructor
  · intro h
    rw [query_pinecone_empty_embed o q ns k h]
    exact ⟨rfl, rfl⟩
  · intro h
    rw [query_pinecone_embed o q ns k h]
    refine ⟨?_, rfl, ?_⟩
    · simp [collectContexts_eq_filterMap]
    · intro c hc
      simp only [collectContexts_eq_filterMap, List.nil_append] at hc
      exact List.mem_filterMap.mp hc

/-- C9: composing with empty history and empty context produces the
fixed system block followed by one user turn whose three delimited
sections appear in order, the context section holding the
no-relevant-information placeholder and the history section the
no-previous-conversation placeholder. -/
theorem compose_empty_spec (q : String) :
    _format_prompt (.str q) [] [] = .ok [⟨"system", system_prompt⟩,
      ⟨"user", "<<CONTEXT>>\n(No relevant information found)\n<<END CONTEXT>>" ++ "\n\n" ++
        "<<CONVERSATION HISTORY>>\n(No previous conversation)\n<<END CONVERSATION HISTORY>>"
        ++ "\n\n" ++ ("<<USER QUESTION>>\n" ++ q ++ "\n<<END USER QUESTION>>")⟩] := rfl

/-- C10: a payload that decodes to a text message with empty body is
treated as not-a-message: acknowledged 200 `OK` with no history write,
no namespace lookup, no retrieval, no generation and no delivery. -/
theorem empty_body_spec (payload p : Json) (db : DB) (o : Oracles)
    (hp : parse_whatsapp_message payload = .ok (some (p, .str ""))) :
    handle_message payload db o = (.ok ("OK", 200), [], db) := by
  rw [handle_message, hp]
  simp [pyTruthy]

/-- Witness for the empty-body theorem on a concrete payload. -/
theorem empty_body_spec_witness :
    parse_whatsapp_message emptyBodyPayload = .ok (some (.str "11234567890", .str "")) ∧
    handle_message emptyBodyPayload emptyDb sampleOracles = (.ok ("OK", 200), [], emptyDb) :=
  ⟨rfl, empty_body_spec emptyBodyPayload (.str "11234567890") emptyDb sampleOracles rfl⟩

/-- C5 counterexample: a payload whose first message has type `text`
but no `from`/`text.body` fields satisfies the claimed decode
condition yet decodes to the not-a-message outcome. -/
theorem decode_claim_cex :
    claimDecodeCond fromlessPayload ∧
    parse_whatsapp_message fromlessPayload = .ok none :=
  ⟨⟨_, _, _, _, _, _, _, _, rfl, rfl, rfl, rfl, rfl, rfl, rfl, rfl, rfl⟩, rfl⟩

/-- C7 counterexample: content failing strict JSON parse and containing
the pattern with an empty quoted message: the salvage path returns the
empty string, not the parse-error failure the claim requires. -/
theorem salvage_empty_cex :
    strictParse emptySalvageRaw = none ∧
    hasMsgLit emptySalvageRaw.data = true ∧
    parse_llm_content emptySalvageRaw = .ok (some (.str "")) := ⟨rfl, rfl, rfl⟩

/-- Witness for the amended salvage theorem: the earliest match of the
pattern is extracted. -/
theorem salvage_spec_witness :
    strictParse salvageRaw = none ∧
    matchAt (salvageRaw.data.drop 5) = some "Hello" ∧
    (∀ j, j < 5 → matchAt (salvageRaw.data.drop j) = none) ∧
    parse_llm_content salvageRaw = .ok (some (.str "Hello")) :=
  ⟨rfl, rfl, by decide,
   (salvage_spec salvageRaw rfl).2 5 "Hello" rfl (by decide)⟩

/-- C1 counterexample: on a well-formed text message from a known
sender, a generation reply whose content is valid JSON but not an
object raises an uncaught `AttributeError`: this terminal path sends
no outbound message at all (the inbound turn was already persisted). -/
theorem pipeline_crash_cex :
    (handle_message samplePayload sampleDb crashOracles).1 = .error .attributeError ∧
    sends (handle_message samplePayload sampleDb crashOracles).2.1 = [] ∧
    Event.insertMsg (.str "11234567890") "user" (.str "Is breakfast included?")
      ∈ (handle_message samplePayload sampleDb crashOracles).2.1 := by
  refine ⟨rfl, rfl, ?_⟩
  have htr : (handle_message samplePayload sampleDb crashOracles).2.1 =
      [Event.insertMsg (.str "11234567890") "user" (.str "Is breakfast included?"),
       Event.nsLookup (.str "11234567890"),
       Event.historyFetch (.str "11234567890"),
       Event.embedCall (.str "Is breakfast included?"),
       Event.searchCall (.str "ns1") 5,
       Event.genCall] := rfl
  rw [htr]
  exact List.mem_cons_self _ _

/-- Witness for the amended terminal-path theorem on the complete
sample payload with known sender and well-behaved backends. -/
theorem pipeline_terminal_spec_witness :
    parse_whatsapp_message samplePayload =
      .ok (some (.str "11234567890", .str "Is breakfast included?")) ∧
    ((∃ pre rest, (handle_message samplePayload sampleDb sampleOracles).2.1 =
        pre ++ Event.nsLookup (.str "11234567890") :: rest ∧
        Event.insertMsg (.str "11234567890") "user" (.str "Is breakfast included?") ∈ pre) ∧
     ((∃ r, genReply sampleOracles = .ok r ∧
         ∀ j, r = some j → pyTruthy j = true → sliceableB j = true) →
      (∀ ns : Json, ∀ j ∈ (query_pinecone sampleOracles
          (.str "Is breakfast included?") ns 5).1, ∃ s, j = Json.str s) →
      (handle_message samplePayload sampleDb sampleOracles).1 = .ok ("OK", 200) ∧
      (∃ b, sends (handle_message samplePayload sampleDb sampleOracles).2.1 =
          [Event.send (.str "11234567890") b] ∧
        (b = .str apologyProfile ∨ b = .str apologyError ∨
          genReply sampleOracles = .ok (some b))) ∧
      (botInserts (handle_message samplePayload sampleDb sampleOracles).2.1 ≠ [] ↔
        ((∃ ns, nsOf sampleDb (.str "11234567890") = some ns ∧ pyTruthy ns = true) ∧
         (∃ j, genReply sampleOracles = .ok (some j) ∧ pyTruthy j = true))))) :=
  ⟨rfl, pipeline_terminal_spec samplePayload (.str "11234567890")
    (.str "Is breakfast included?") sampleDb sampleOracles rfl rfl rfl⟩

/-- Witness for the unknown-sender theorem: the sample message against
a store with no user rows. -/
theorem unknown_user_spec_witness :
    parse_whatsapp_message samplePayload =
      .ok (some (.str "11234567890", .str "Is breakfast included?")) ∧
    emptyDb.users.filter (fun u => pyEq u.1 (.str "11234567890")) = [] ∧
    ((handle_message samplePayload emptyDb sampleOracles).1 = .ok ("OK", 200) ∧
     sends (handle_message samplePayload emptyDb sampleOracles).2.1 =
       [Event.send (.str "11234567890") (.str apologyProfile)] ∧
     countSearch (handle_message samplePayload emptyDb sampleOracles).2.1 = 0 ∧
     countGen (handle_message samplePayload emptyDb sampleOracles).2.1 = 0 ∧
     (∃ pre rest, (handle_message samplePayload emptyDb sampleOracles).2.1 =
        pre ++ Event.nsLookup (.str "11234567890") :: rest ∧
        Event.insertMsg (.str "11234567890") "user" (.str "Is breakfast included?") ∈ pre)) :=
  ⟨rfl, rfl, unknown_user_spec samplePayload (.str "11234567890")
    (.str "Is breakfast included?") emptyDb sampleOracles rfl rfl rfl rfl⟩

end PaperBot
